import Mathlib

/-!
# Verification of the moseq2-pca core numerics

Shallow embedding of the numeric core of `moseq2-pca` (files
`moseq2_pca/pca/util.py` and `moseq2_pca/helpers/wrappers.py`) and proofs of the
specification claims about it.

Conventions of the embedding:
* A frame matrix of shape `(nframes, nfeatures)` is a function `Fin n → Fin d → ℚ`.
  Rationals stand in for the float arithmetic of the source; the claims proved here
  are structural/algebraic and do not depend on rounding.
* The numeric SVD (`dask.array.linalg.svd_compressed`) is an oracle parameter: a
  function from the centered matrix to a `(u, s, v)` triple.  Everything the source
  does around the oracle (centering, iteration, reconstruction, masking, sign
  correction, explained variance) is embedded exactly.
* Spatial/temporal filtering (`clean_frames`) and the optional FFT are external
  per-frame transforms; where a claim needs them they appear as an opaque-by-
  parameterization function argument `clean`.
* Two functions of the repository (`insert_nans` and `get_changepoints` from
  `moseq2_pca/util.py`) are not part of the provided sources; they are modelled
  from the specification text and marked as such in their doc comments.
-/

namespace MoseqPca

/-- A matrix of shape `(n, d)` with rational entries. -/
abbrev Mat (n d : ℕ) : Type := Fin n → Fin d → ℚ

/-- A vector of length `d` with rational entries. -/
abbrev Vec (d : ℕ) : Type := Fin d → ℚ

/-- Row-wise broadcast subtraction `dask_array - mean` (pca/util.py, lines 65 and 68):
subtract the per-feature mean vector from every row. -/
def center {n d : ℕ} (X : Mat n d) (mean : Vec d) : Mat n d :=
  fun i j => X i j - mean j

/-- `dask_array.mean(axis=0)` (pca/util.py line 219 / line 74): per-column mean. -/
def colMean {n d : ℕ} (X : Mat n d) : Vec d :=
  fun j => (∑ i, X i j) / (n : ℚ)

/-- `frames.dot(pca_components.T)` (pca/util.py lines 317 and 398): the score matrix,
row `i`, component `k` is the inner product of frame `i` with component row `k`. -/
def matmulT {n d r : ℕ} (X : Mat n d) (C : Mat r d) : Mat n r :=
  fun i k => ∑ j, X i j * C k j

/-- `scores.dot(pca_components)` (pca/util.py lines 322 and 401): reconstruction of
flattened frames from scores. -/
def matmul {n r d : ℕ} (S : Mat n r) (C : Mat r d) : Mat n d :=
  fun i j => ∑ k, S i k * C k j

/-- The sequential pair of in-place filters
`a[a < lo] = 0` followed by `a[a > hi] = 0`
(pca/util.py lines 71-72 and 323-324, helpers/wrappers.py lines 138-139),
translated entry-wise.  The second comparison sees the result of the first,
exactly as in the source. -/
def clip2 (lo hi x : ℚ) : ℚ :=
  let y := if x < lo then 0 else x
  if y > hi then 0 else y

/-- `mask_data` (pca/util.py lines 14-33): copy `original_data`, then overwrite the
entries selected by the boolean `mask` with the corresponding entries of `new_data`.
The copy-then-overwrite of the source is the pointwise conditional here; the input
array is left untouched. -/
def mask_data {n d : ℕ} (original_data : Mat n d) (mask : Fin n → Fin d → Bool)
    (new_data : Mat n d) : Mat n d :=
  fun i j => if mask i j then new_data i j else original_data i j

/-- The numeric rank-`r` SVD (`dask.array.linalg.svd_compressed(A, rank, 0)`),
abstracted as an oracle producing `(u, s, v)` from its input matrix. -/
def SvdOracle (n d r : ℕ) : Type := Mat n d → Mat n r × Vec r × Mat r d

/-- `u[:, :recon_pcs].dot(da.diag(s[:recon_pcs]).dot(v[:recon_pcs, :])) + mean`
(pca/util.py line 70): rank-`reconPcs` reconstruction plus the mean.  numpy slicing
`[:recon_pcs]` keeps the indices strictly below `recon_pcs` (all of them when
`recon_pcs` exceeds the rank), hence the guard on `k`. -/
def lowRankRecon {n d r : ℕ} (u : Mat n r) (s : Vec r) (v : Mat r d)
    (reconPcs : ℕ) (mean : Vec d) : Mat n d :=
  fun i j => (∑ k : Fin r, if (k : ℕ) < reconPcs then u i k * (s k * v k j) else 0) + mean j

/-- Result of the SVD loop of `compute_svd`: singular values `s`, components `v`,
the final (possibly imputed) data matrix `X`, the final mean, and the number of
times the SVD oracle was invoked (instrumentation used to state claim C3). -/
structure SvdLoopResult (n d r : ℕ) where
  s : Vec r
  v : Mat r d
  X : Mat n d
  mean : Vec d
  svdCalls : ℕ

/-- The `for iter in range(iters)` loop of `compute_svd` (pca/util.py lines 67-74),
missing-data path.  Each iteration computes the SVD of the mean-centered current
matrix; on every iteration except the last (`iter < iters - 1`) it forms the
clipped low-rank reconstruction, overwrites the masked entries of a copy of the
data with it (`mask_data` via `da.map_blocks`), and recomputes the mean.
`iters = 0` never runs the loop body (in Python `s`/`v` would then be unbound);
the claims are stated for `iters ≥ 1`. -/
def computeSvdLoop {n d r : ℕ} (svdO : SvdOracle n d r) (mask : Fin n → Fin d → Bool)
    (reconPcs : ℕ) (minHeight maxHeight : ℚ) :
    ℕ → Mat n d → Vec d → SvdLoopResult n d r
  | 0, X, mean => ⟨fun _ => 0, fun _ _ => 0, X, mean, 0⟩
  | 1, X, mean =>
      let t := svdO (center X mean)
      ⟨t.2.1, t.2.2, X, mean, 1⟩
  | k + 2, X, mean =>
      let t := svdO (center X mean)
      let recon : Mat n d :=
        fun i j => clip2 minHeight maxHeight (lowRankRecon t.1 t.2.1 t.2.2 reconPcs mean i j)
      let X1 := mask_data X mask recon
      let res := computeSvdLoop svdO mask reconPcs minHeight maxHeight (k + 1) X1 (colMean X1)
      { res with svdCalls := res.svdCalls + 1 }

/-- `dask_array.var(ddof=1, axis=0).sum()` (pca/util.py line 76): per-column variance
with an `n - 1` denominator, summed over columns. -/
def totalVarOf {n d : ℕ} (X : Mat n d) : ℚ :=
  ∑ j, (∑ i, (X i j - colMean X j) ^ 2) / ((n : ℚ) - 1)

/-- Squared Frobenius norm, used to relate `totalVarOf` to the singular values. -/
def frobSq {n d : ℕ} (A : Mat n d) : ℚ :=
  ∑ i, ∑ j, (A i j) ^ 2

/-- Output of `compute_svd` (pca/util.py lines 35-82): singular values, components,
(updated) mean, total variance of the final data matrix, plus the final data matrix
itself and the SVD invocation count as instrumentation. -/
structure SvdOut (n d r : ℕ) where
  s : Vec r
  v : Mat r d
  mean : Vec d
  total_var : ℚ
  finalX : Mat n d
  svdCalls : ℕ

/-- `compute_svd` (pca/util.py lines 35-82).  Without missing data: one SVD of the
mean-centered matrix (`_, s, v = svd_compressed(dask_array - mean, rank, 0)`).
With missing data: the fixed-iteration imputation loop.  In both branches
`total_var` is computed from the final data matrix (line 76). -/
def compute_svd {n d r : ℕ} (svdO : SvdOracle n d r) (missing_data : Bool)
    (mask : Fin n → Fin d → Bool) (iters reconPcs : ℕ) (minHeight maxHeight : ℚ)
    (X : Mat n d) (mean : Vec d) : SvdOut n d r :=
  if missing_data then
    let res := computeSvdLoop svdO mask reconPcs minHeight maxHeight iters X mean
    ⟨res.s, res.v, res.mean, totalVarOf res.X, res.X, res.svdCalls⟩
  else
    let t := svdO (center X mean)
    ⟨t.2.1, t.2.2, mean, totalVarOf X, X, 1⟩

/-- `compute_explained_variance` (pca/util.py lines 84-104):
`explained_variance = s ** 2 / (nsamples - 1)` and the ratio of that to
`total_var`, both element-wise.  Returned as a pair (variances, ratios). -/
def compute_explained_variance {r : ℕ} (s : Vec r) (nsamples : ℕ) (total_var : ℚ) :
    Vec r × Vec r :=
  let explained_variance : Vec r := fun i => s i ^ 2 / ((nsamples : ℚ) - 1)
  (explained_variance, fun i => explained_variance i / total_var)

/-- `np.argmax(np.abs(row))` for one basis row (pca/util.py line 245): the FIRST
index attaining the maximal absolute value (numpy `argmax` breaks ties by the
first occurrence; only a strictly larger value displaces the current best). -/
def argmaxAbs {d : ℕ} (row : Vec (d + 1)) : Fin (d + 1) :=
  (List.finRange (d + 1)).foldl (fun best j => if |row j| > |row best| then j else best) 0

/-- `np.sign` on rationals: `1` on positives, `-1` on negatives, `0` at `0`. -/
def signQ (x : ℚ) : ℚ :=
  if 0 < x then 1 else if x < 0 then -1 else 0

/-- The sign correction of `train_pca_dask` (pca/util.py lines 244-247):
`tmp = np.argmax(np.abs(v), axis=1)`, `correction = np.sign(v[rows, tmp])`,
`v *= correction[:, None]` — every row is multiplied by the sign of its
largest-magnitude entry. -/
def signCorrect {r d : ℕ} (v : Mat r (d + 1)) : Mat r (d + 1) :=
  fun i j => v i j * signQ (v i (argmaxAbs (v i)))

/-- The output bundle of `train_pca_dask` (pca/util.py lines 251-257). -/
structure TrainOut (n d r : ℕ) where
  components : Mat r d
  singular_values : Vec r
  explained_variance : Vec r
  explained_variance_ratios : Vec r
  mean : Vec d
  finalSvd : SvdOut n d r

/-- `train_pca_dask` (pca/util.py lines 157-259) from the point where the cleaned,
flattened frame matrix `X` exists (cleaning/FFT/reshape are external per-frame
transforms; the missing-data zeroing of line 195 is embedded as `train_front`
below): take the column mean (line 219), run `compute_svd` (line 240), apply the
sign correction (lines 244-247), and compute the explained variances with
`nsamples = len(dask_array) = n` (line 249).  Feature count is `d + 1` because
`np.argmax` requires a nonempty row. -/
def train_pca_dask {n d r : ℕ} (svdO : SvdOracle n (d + 1) r) (missing_data : Bool)
    (mask : Fin n → Fin (d + 1) → Bool) (iters reconPcs : ℕ) (minHeight maxHeight : ℚ)
    (X : Mat n (d + 1)) : TrainOut n (d + 1) r :=
  let mean := colMean X
  let out := compute_svd svdO missing_data mask iters reconPcs minHeight maxHeight X mean
  let ev := compute_explained_variance out.s n out.total_var
  ⟨signCorrect out.v, out.s, ev.1, ev.2, out.mean, out⟩

/-- The missing-data mask construction shared by the three stages
(`np.logical_and(mask < mask_threshold, frames > mask_height_threshold)`,
helpers/wrappers.py lines 166-167, pca/util.py lines 302-303, 381-382, 494-495):
a pixel is missing iff its stored mask value is strictly below `mthr` and its
frame value is strictly above `hthr`. -/
def build_mask {n d : ℕ} (mthr hthr : ℚ) (maskRaw frames : Mat n d) :
    Fin n → Fin d → Bool :=
  fun i j => decide (maskRaw i j < mthr) && decide (hthr < frames i j)

/-- `frames[mask] = 0` (pca/util.py lines 195, 304, 383, 496): zero the marked pixels. -/
def zero_masked {n d : ℕ} (frames : Mat n d) (mask : Fin n → Fin d → Bool) : Mat n d :=
  fun i j => if mask i j then 0 else frames i j

/-- The training-stage front end (helpers/wrappers.py lines 138-139 and 162-171,
plus pca/util.py lines 193-196): clip the stacked frames to `[min_height,
max_height]` (values outside go to 0), then — in missing-data mode — build the
mask from the stored mask stack and the (clipped) frames and zero the marked
pixels before any filtering.  Returns the frames handed to the cleaning filters
together with the mask. -/
def train_front {n d : ℕ} (minHeight maxHeight mthr hthr : ℚ)
    (frames maskRaw : Mat n d) (missing_data : Bool) :
    Mat n d × (Fin n → Fin d → Bool) :=
  let clipped : Mat n d := fun i j => clip2 minHeight maxHeight (frames i j)
  if missing_data then
    let m := build_mask mthr hthr maskRaw clipped
    (zero_masked clipped m, m)
  else
    (clipped, fun _ _ => false)

/-- The score-application front end (pca/util.py lines 298-305 in
`apply_pca_local`, identically lines 375-384 in `apply_pca_dask`): in
missing-data mode build the mask from the raw mask stack and the raw frames,
then zero the marked pixels; otherwise pass the frames through. -/
def apply_front {n d : ℕ} (mthr hthr : ℚ) (frames maskRaw : Mat n d)
    (missing_data : Bool) : Mat n d × (Fin n → Fin d → Bool) :=
  if missing_data then
    let m := build_mask mthr hthr maskRaw frames
    (zero_masked frames m, m)
  else
    (frames, fun _ _ => false)

/-- The changepoint-stage front end (pca/util.py lines 491-497 in
`get_changepoints_dask`): the same mask construction and zeroing as the score
applier, performed before the frames are reshaped and projected. -/
def changepoints_front {n d : ℕ} (mthr hthr : ℚ) (frames maskRaw : Mat n d)
    (missing_data : Bool) : Mat n d × (Fin n → Fin d → Bool) :=
  if missing_data then
    let m := build_mask mthr hthr maskRaw frames
    (zero_masked frames m, m)
  else
    (frames, fun _ _ => false)

/-- Masking parameters of the score applier (`mask_params`). -/
structure MaskParams where
  mask_threshold : ℚ
  mask_height_threshold : ℚ
  min_height : ℚ
  max_height : ℚ

/-- One session of `apply_pca_local` (pca/util.py lines 296-326; the dask variant
lines 374-405 builds the same expression graph): optionally mask and zero missing
pixels, clean the frames (`clean` stands for `clean_frames`, the optional FFT and
the flatten, lines 307-312), project onto the components WITHOUT subtracting the
trained mean (line 317), and in missing-data mode reconstruct once (`scores ·
components`), clip to the height bounds, overwrite the masked entries, and
re-project once (lines 321-326). -/
def apply_pca_session {n d r : ℕ} (clean : Mat n d → Mat n d) (pca_components : Mat r d)
    (frames maskRaw : Mat n d) (mp : MaskParams) (missing_data : Bool) : Mat n r :=
  let front := apply_front mp.mask_threshold mp.mask_height_threshold frames maskRaw missing_data
  let cleaned := clean front.1
  let scores := matmulT cleaned pca_components
  if missing_data then
    let recon : Mat n d :=
      fun i j => clip2 mp.min_height mp.max_height (matmul scores pca_components i j)
    let frames2 := mask_data cleaned front.2 recon
    matmulT frames2 pca_components
  else
    scores

/-- Python errors that can escape the embedded fragments of the wrappers. -/
inductive PyError
  | nameError
  | runtimeError
  | attributeError
deriving DecidableEq

/-- Observable outcome of the tail of `train_pca_wrapper`
(helpers/wrappers.py lines 174-232). -/
structure TrainRunOutcome where
  svdErrorLogged : Bool
  clientClosed : Bool
  clusterClosed : Bool
  saveFileOpenedW : Bool
  basisDatasetsWritten : Bool
  uncaughtError : Option PyError
deriving DecidableEq

/-- `click.echo(message=None, file=None, nl=True, err=False, color=None)`: the
SECOND positional parameter is the output stream `file`.  A call with one
argument (`filePos = none`) writes to stdout and succeeds; a call that passes a
log-path string as the second positional argument — as `wrappers.py` does at
lines 188 and 202 with `click.echo('...', os.path.join(output_dir, 'train.log'))`
— makes `click.echo` call `file.write(out)` on a `str`, which raises
`AttributeError`. -/
def click_echo (filePos : Option String) : Except PyError Unit :=
  match filePos with
  | none => Except.ok ()
  | some _ => Except.error PyError.attributeError

/-- The tail of `train_pca_wrapper` (helpers/wrappers.py lines 174-232), from the
`try` around `train_pca_dask` onward, as a function of whether the training-stage
computation raises.  Control flow of the source, statement by statement:
* lines 183-188: on an exception from `train_pca_dask` the handler logs the error
  twice (185-186), echoes "Training interrupted..." with a single argument (187,
  succeeds), then at line 188 calls `click.echo('---- ', os.path.join(output_dir,
  'train.log'))`, passing the path string as `click.echo`'s positional `file`
  parameter.  When that call raises (`click_echo` with a `some` argument), the
  handler is abandoned: `client.close`/`cluster.close` (lines 189-190) never run,
  nothing after the handler runs, and the `AttributeError` (with the original
  exception as its context) propagates out of the wrapper;
* the two inner `Except.ok` branches record what the source would do if the
  line-188 call returned: close client and cluster (189-190), fall through with
  `output_dict` unbound; the first plotting block's `NameError` is caught at 198
  and its handler hits the same path-as-`file` misuse at line 202; only if that
  also returned would line 217 truncate the output h5 before `output_dict.items()`
  raises `NameError`;
* success path (lines 192-230): plots, `h5py.File(save_file + ".h5", "w")` with
  the datasets written (216-219), client and cluster closed (224-230). -/
def train_pca_wrapper_tail (svdRaises : Bool) : TrainRunOutcome :=
  if svdRaises then
    match click_echo (some "train.log") with
    | Except.error e =>
        { svdErrorLogged := true, clientClosed := false, clusterClosed := false,
          saveFileOpenedW := false, basisDatasetsWritten := false,
          uncaughtError := some e }
    | Except.ok _ =>
        match click_echo (some "train.log") with
        | Except.error e =>
            { svdErrorLogged := true, clientClosed := true, clusterClosed := true,
              saveFileOpenedW := false, basisDatasetsWritten := false,
              uncaughtError := some e }
        | Except.ok _ =>
            { svdErrorLogged := true, clientClosed := true, clusterClosed := true,
              saveFileOpenedW := true, basisDatasetsWritten := false,
              uncaughtError := some PyError.nameError }
  else
    { svdErrorLogged := false, clientClosed := true, clusterClosed := true,
      saveFileOpenedW := true, basisDatasetsWritten := true,
      uncaughtError := none }

/-- The observable steps of `train_pca_wrapper` up to (and including) the point
where the FFT/missing-data configuration check can fire. -/
inductive WrapperEvent
  | setDaskConfig
  | makeOutputDir
  | findH5Files
  | checkTimestampFiles
  | raiseUnsupportedConfig
  | writeConfigYaml
  | openFrameDatasets
  | initDaskClient
  | trainAndSave
deriving DecidableEq

/-- Which wrapper steps perform I/O: creating the output directory, recursively
scanning the input directory for h5/yaml session files, reading the files'
timestamp entries, writing the PCA config yaml, opening the frame datasets, and
the training/saving stage itself.  `set_dask_config` mutates in-process dask
configuration and the configuration check is pure. -/
def isIoEvent : WrapperEvent → Bool
  | WrapperEvent.makeOutputDir => true
  | WrapperEvent.findH5Files => true
  | WrapperEvent.checkTimestampFiles => true
  | WrapperEvent.writeConfigYaml => true
  | WrapperEvent.openFrameDatasets => true
  | WrapperEvent.trainAndSave => true
  | _ => false

/-- The event trace of a `train_pca_wrapper` call as decorated by
`load_and_check_data` (helpers/wrappers.py lines 22-73 then 75-135).  The
decorator runs first: `set_dask_config()` (line 43), output-directory creation
(lines 49-51), `recursive_find_h5s` (lines 55-61), `get_timestamps` (line 63);
only then does the wrapped body run, whose first statement (lines 96-97) raises
`NotImplementedError` when `missing_data` and `use_fft` are both set; otherwise
the body goes on to write the config yaml (lines 117-119), open the frame
datasets (lines 133-135), initialize the dask client (lines 144-156) and train. -/
def train_wrapper_trace (missing_data use_fft : Bool) : List WrapperEvent :=
  [WrapperEvent.setDaskConfig, WrapperEvent.makeOutputDir,
   WrapperEvent.findH5Files, WrapperEvent.checkTimestampFiles] ++
  (if missing_data && use_fft then
    [WrapperEvent.raiseUnsupportedConfig]
  else
    [WrapperEvent.writeConfigYaml, WrapperEvent.openFrameDatasets,
     WrapperEvent.initDaskClient, WrapperEvent.trainAndSave])

/-- The events of a trace that happen strictly before the configuration error. -/
def beforeRaise (t : List WrapperEvent) : List WrapperEvent :=
  t.takeWhile (fun e => e != WrapperEvent.raiseUnsupportedConfig)

/-- One session as seen by `get_changepoints_dask` (pca/util.py lines 443-547):
the total chunked frame count (`np.sum(frames.chunks[0])`), the number of real
score rows loaded from the scores file (`scores.shape[0]` after dropping the
NaN-index rows), and the detector result — `none` models the `(None, None)`
returned by `get_changepoints` on a degenerate signal, `some (cps, cps_score)`
the accepted changepoint list and its peak values. -/
structure CpSession where
  chunksTotal : ℕ
  nScores : ℕ
  result : Option (List ℚ × List ℚ)
deriving DecidableEq

/-- The setup loop of `get_changepoints_dask` (pca/util.py lines 478-521).  Per
session: with missing data but no scores file, `raise RuntimeError` (lines
489-490) aborts the whole call; with missing data and a chunk/score count
mismatch, warn and `continue` — the session is dropped and the loop proceeds
(lines 504-506); otherwise the session's future is queued.  Returns the queued
sessions in order together with the number of warnings emitted. -/
def setup_sessions (missing_data scoresAvail : Bool) :
    List CpSession → Except PyError (List CpSession × ℕ)
  | [] => Except.ok ([], 0)
  | s :: rest =>
      if missing_data && !scoresAvail then
        Except.error PyError.runtimeError
      else if missing_data && (s.chunksTotal != s.nScores) then
        (setup_sessions missing_data scoresAvail rest).map (fun pr => (pr.1, pr.2 + 1))
      else
        (setup_sessions missing_data scoresAvail rest).map (fun pr => (s :: pr.1, pr.2))

/-- The write loop of `get_changepoints_dask` (pca/util.py lines 524-547):
batch size 1, results committed as they complete; a dataset pair is written only
when `result[0] is not None and result[1] is not None` (line 543) — the stored
pair here is `(cps / fps, cps_score)` per lines 544-547; a `none` result is silently
skipped and the loop continues with the next batch. -/
def write_changepoints (fps : ℚ) (kept : List CpSession) : List (List ℚ × List ℚ) :=
  kept.filterMap (fun s => s.result.map (fun r => (r.1.map (fun t => t / fps), r.2)))

/-- `get_changepoints_dask` (pca/util.py lines 443-547) at the batch level:
the setup loop followed by the write loop. -/
def get_changepoints_dask_run (missing_data scoresAvail : Bool) (fps : ℚ)
    (sessions : List CpSession) : Except PyError (List (List ℚ × List ℚ) × ℕ) :=
  (setup_sessions missing_data scoresAvail sessions).map
    (fun pr => (write_changepoints fps pr.1, pr.2))

/-- Modelled from the spec: `get_changepoints` lives in `moseq2_pca/util.py`,
which is not among the provided sources.  Spec §4.5: steps 1-5 (random
projection, lagged derivative, aggregation, smoothing, greedy peak scan) produce
the accepted peak sample indices and their peak values, abstracted here as the
`detected` argument (`none` for a degenerate signal); step 6 maps each accepted
peak sample index to real time via the timestamp series, and the output is
`(changepoint_times, changepoint_peak_values)` or `(None, None)`. -/
def get_changepoints_model {T : ℕ} (timestamps : Fin T → ℚ)
    (detected : Option (List (Fin T) × List ℚ)) : Option (List ℚ × List ℚ) :=
  detected.map (fun pr => (pr.1.map (fun p => timestamps p), pr.2))

/-- What `get_changepoints_dask` persists as a session's changepoint times
(pca/util.py line 546): `result[0] / fps`, written only when the result is not
`(None, None)`. -/
def persisted_cps (fps : ℚ) (res : Option (List ℚ × List ℚ)) : Option (List ℚ) :=
  res.map (fun r => r.1.map (fun t => t / fps))

/-- Modelled from the spec: helper for `insert_nans` (below) — how many all-NaN
rows to insert between two consecutive real rows.  Spec §4.4: a gap between
consecutive timestamps exceeding the expected inter-frame interval by more than
a factor of 1.5 receives enough inserted rows that the output length matches the
time span implied by the nominal rate. -/
def fill_count (fps t1 t2 : ℚ) : ℕ :=
  if t2 - t1 > 3 / 2 * (1 / fps) then (round ((t2 - t1) * fps) - 1).toNat else 0

/-- Modelled from the spec: `insert_nans` lives in `moseq2_pca/util.py`, which is
not among the provided sources.  Spec §4.4 (Frame-Grid Reindexer): walk the
consecutive timestamp gaps of the session's score rows and insert all-NaN rows
(`none`) wherever a gap exceeds the expected interval by more than the 1.5
tolerance; real rows (`some`) are kept in order.  The same-length marker array
of the spec is the `Option` constructor of each output row. -/
def insert_nans {α : Type} (fps : ℚ) : List (α × ℚ) → List (Option α)
  | [] => []
  | [(x, _)] => [some x]
  | (x, t1) :: (y, t2) :: rest =>
      some x :: (List.replicate (fill_count fps t1 t2) none ++
        insert_nans fps ((y, t2) :: rest))

/-! ## Helper lemmas -/

/-- Invariant of the `argmaxAbs` fold: the result dominates the start index and
every scanned index in absolute value. -/
lemma abs_le_foldl_argmax {d : ℕ} (row : Vec (d + 1)) (l : List (Fin (d + 1))) :
    ∀ b j : Fin (d + 1), j = b ∨ j ∈ l →
      |row j| ≤ |row (l.foldl (fun best k => if |row k| > |row best| then k else best) b)| := by
  induction l with
  | nil =>
      intro b j hj
      rcases hj with rfl | h
      · exact le_refl _
      · cases h
  | cons a l ih =>
      intro b j hj
      simp only [List.foldl_cons]
      by_cases hab : |row a| > |row b|
      · rw [if_pos hab]
        rcases hj with hb | hj
        · rw [hb]; exact le_trans (le_of_lt hab) (ih a a (Or.inl rfl))
        · rcases List.mem_cons.mp hj with ha | hl
          · rw [ha]; exact ih a a (Or.inl rfl)
          · exact ih a j (Or.inr hl)
      · rw [if_neg hab]
        rcases hj with hb | hj
        · rw [hb]; exact ih b b (Or.inl rfl)
        · rcases List.mem_cons.mp hj with ha | hl
          · rw [ha]; exact le_trans (not_lt.mp hab) (ih b b (Or.inl rfl))
          · exact ih b j (Or.inr hl)

/-- The entry picked by `argmaxAbs` has maximal absolute value in the row. -/
lemma abs_le_argmaxAbs {d : ℕ} (row : Vec (d + 1)) (j : Fin (d + 1)) :
    |row j| ≤ |row (argmaxAbs row)| :=
  abs_le_foldl_argmax row (List.finRange (d + 1)) 0 j (Or.inr (List.mem_finRange j))

/-- After the sign correction, the entry at the row's argmax position dominates
the absolute value of every entry of the corrected row (in particular it is
non-negative and still of maximal magnitude). -/
lemma signCorrect_row_max {r d : ℕ} (v : Mat r (d + 1)) (i : Fin r) (j : Fin (d + 1)) :
    |signCorrect v i j| ≤ signCorrect v i (argmaxAbs (v i)) := by
  have hmax := abs_le_argmaxAbs (v i) j
  unfold signCorrect signQ
  rcases lt_trichotomy (v i (argmaxAbs (v i))) 0 with hneg | hzero | hpos
  · rw [if_neg (not_lt.mpr (le_of_lt hneg)), if_pos hneg]
    have h1 : |v i j * (-1 : ℚ)| = |v i j| := by
      rw [abs_mul]; norm_num
    have h2 : v i (argmaxAbs (v i)) * (-1 : ℚ) = |v i (argmaxAbs (v i))| := by
      rw [abs_of_neg hneg]; ring
    rw [h1, h2]; exact hmax
  · have hj : v i j = 0 := by
      rw [hzero] at hmax
      simpa using abs_nonpos_iff.mp (by simpa using hmax)
    rw [if_neg (by rw [hzero]; exact lt_irrefl 0), if_neg (by rw [hzero]; exact lt_irrefl 0)]
    rw [hj, hzero]
    norm_num
  · rw [if_pos hpos]
    have h2 : v i (argmaxAbs (v i)) * (1 : ℚ) = |v i (argmaxAbs (v i))| := by
      rw [abs_of_pos hpos]; ring
    rw [h2, mul_one]
    exact hmax

/-- The imputation loop performs exactly `K + 1` SVD-oracle invocations when run
with iteration budget `K + 1`, independently of the data: there is no
convergence test. -/
lemma computeSvdLoop_calls {n d r : ℕ} (svdO : SvdOracle n d r)
    (mask : Fin n → Fin d → Bool) (reconPcs : ℕ) (minHeight maxHeight : ℚ) :
    ∀ (K : ℕ) (X : Mat n d) (mean : Vec d),
      (computeSvdLoop svdO mask reconPcs minHeight maxHeight (K + 1) X mean).svdCalls = K + 1 := by
  intro K
  induction K with
  | zero => intro X mean; rfl
  | succ k ih =>
      intro X mean
      show (computeSvdLoop svdO mask reconPcs minHeight maxHeight (k + 2) X mean).svdCalls = k + 2
      rw [computeSvdLoop]
      simp only []
      rw [ih]

/-- Removing `none` rows from a block of inserted `none`s leaves nothing. -/
lemma filterMap_id_replicate_none {α : Type} (k : ℕ) :
    (List.replicate k (none : Option α)).filterMap id = [] := by
  induction k with
  | zero => rfl
  | succ k ih => simp [List.replicate_succ, ih]

/-- Closed form of the setup loop of `get_changepoints_dask` when scores are
available whenever missing-data mode is on: sessions with a chunk/score count
mismatch are dropped (each with one warning), all others are kept in order. -/
lemma setup_sessions_eq (missing_data scoresAvail : Bool)
    (h : (missing_data && !scoresAvail) = false) (sessions : List CpSession) :
    setup_sessions missing_data scoresAvail sessions =
      Except.ok
        (sessions.filter (fun s => !(missing_data && (s.chunksTotal != s.nScores))),
         (sessions.filter (fun s => missing_data && (s.chunksTotal != s.nScores))).length) := by
  cases missing_data with
  | false =>
      induction sessions with
      | nil => rfl
      | cons s rest ih =>
          rw [setup_sessions]
          simp only [Bool.false_and, Bool.not_false, if_false, Bool.false_eq_true, ih]
          simp [List.filter_cons, Except.map]
  | true =>
      have hs : scoresAvail = true := by simpa using h
      subst hs
      induction sessions with
      | nil => rfl
      | cons s rest ih =>
          rw [setup_sessions]
          by_cases hc : s.chunksTotal = s.nScores
          · simp [hc, ih, Except.map, List.filter_cons]
          · simp [hc, ih, Except.map, List.filter_cons]

/-- Writing the kept sessions equals one pass over all sessions that maps each
passing session's non-degenerate result and omits everything else. -/
lemma write_changepoints_filter (missing_data : Bool) (fps : ℚ)
    (sessions : List CpSession) :
    write_changepoints fps
        (sessions.filter (fun s => !(missing_data && (s.chunksTotal != s.nScores)))) =
      sessions.filterMap (fun s =>
        if missing_data && (s.chunksTotal != s.nScores) then none
        else s.result.map (fun r => (r.1.map (fun t => t / fps), r.2))) := by
  cases missing_data with
  | false =>
      induction sessions with
      | nil => rfl
      | cons s rest ih =>
          simp only [write_changepoints, List.filter_cons] at *
          simp only [Bool.false_and, Bool.not_false, if_true, List.filterMap_cons,
            Bool.false_eq_true, if_false] at *
          cases hr : s.result with
          | none => simp [hr, ih]
          | some r => simp [hr, ih]
  | true =>
      induction sessions with
      | nil => rfl
      | cons s rest ih =>
          simp only [write_changepoints, List.filter_cons] at *
          by_cases hc : s.chunksTotal = s.nScores
          · cases hr : s.result with
            | none => simp [hc, hr, List.filterMap_cons]; simpa using ih
            | some r => simp [hc, hr, List.filterMap_cons]; simpa using ih
          · simp [hc, List.filterMap_cons]
            simpa using ih

/-- `totalVarOf` is the squared Frobenius norm of the column-mean-centered matrix
divided by `n - 1`: the code's `var(ddof=1, axis=0).sum()` in closed form. -/
lemma totalVarOf_eq_frobSq {n d : ℕ} (X : Mat n d) :
    totalVarOf X = frobSq (center X (colMean X)) / ((n : ℚ) - 1) := by
  unfold totalVarOf frobSq center
  rw [← Finset.sum_div, Finset.sum_comm]

/-- Shared shape of the three stage front ends: the built mask is true exactly on
pixels with stored mask value below `mthr` and frame value above `hthr`, and the
zeroing sets exactly the marked pixels to 0. -/
lemma front_spec {n d : ℕ} (mthr hthr : ℚ) (frames maskRaw : Mat n d)
    (i : Fin n) (j : Fin d) :
    (build_mask mthr hthr maskRaw frames i j = true ↔
      (maskRaw i j < mthr ∧ hthr < frames i j)) ∧
    (build_mask mthr hthr maskRaw frames i j = true →
      zero_masked frames (build_mask mthr hthr maskRaw frames) i j = 0) ∧
    (build_mask mthr hthr maskRaw frames i j = false →
      zero_masked frames (build_mask mthr hthr maskRaw frames) i j = frames i j) := by
  refine ⟨?_, ?_, ?_⟩
  · simp [build_mask]
  · intro hm; simp [zero_masked, hm]
  · intro hm; simp [zero_masked, hm]

/-! ## Claims -/

/-- C1: for every session the Score Applier computes `scores = frames ·
componentsᵗ` on the cleaned flattened frames without subtracting the trained
mean, while the Trainer's `compute_svd` always applies the SVD to the
mean-centered matrix `X - mean`; and projecting without centering genuinely
differs from the mean-centered projection. -/
theorem c1_apply_projects_without_mean_centering :
    (∀ (n d r : ℕ) (clean : Mat n d → Mat n d) (pca_components : Mat r d)
        (frames maskRaw : Mat n d) (mp : MaskParams),
        apply_pca_session clean pca_components frames maskRaw mp false =
          matmulT (clean frames) pca_components) ∧
    (∀ (n d r : ℕ) (svdO : SvdOracle n d r) (mask : Fin n → Fin d → Bool)
        (iters reconPcs : ℕ) (minHeight maxHeight : ℚ) (X : Mat n d) (mean : Vec d),
        (compute_svd svdO false mask iters reconPcs minHeight maxHeight X mean).s =
          (svdO (center X mean)).2.1 ∧
        (compute_svd svdO false mask iters reconPcs minHeight maxHeight X mean).v =
          (svdO (center X mean)).2.2 ∧
        (computeSvdLoop svdO mask reconPcs minHeight maxHeight 1 X mean).s =
          (svdO (center X mean)).2.1 ∧
        (computeSvdLoop svdO mask reconPcs minHeight maxHeight 1 X mean).v =
          (svdO (center X mean)).2.2) ∧
    (∃ (frames pca_components : Mat 1 1) (mean : Vec 1),
        matmulT frames pca_components ≠ matmulT (center frames mean) pca_components) := by
  refine ⟨?_, ?_, ?_⟩
  · intro n d r clean pca_components frames maskRaw mp
    rfl
  · intro n d r svdO mask iters reconPcs minHeight maxHeight X mean
    exact ⟨rfl, rfl, rfl, rfl⟩
  · refine ⟨![![2]], ![![1]], ![1], fun h => ?_⟩
    have h0 := congrFun (congrFun h 0) 0
    simp [matmulT, center, Fin.sum_univ_one] at h0
    norm_num at h0

/-- C2 (code bug): when `train_pca_dask` raises, the handler's own
`click.echo('---- ', path)` at line 188 — the log path passed as `click.echo`'s
positional `file` parameter — raises `AttributeError` inside the handler, so
`client.close`/`cluster.close` (lines 189-190) never run and the error
propagates: the run does abort with no partial basis file persisted, but the
compute resources are NOT released, contrary to the claim (and to the handler's
own "Closing Dask Client." message one line earlier). -/
theorem c2_failure_path_skips_resource_release :
    train_pca_wrapper_tail true =
      { svdErrorLogged := true, clientClosed := false, clusterClosed := false,
        saveFileOpenedW := false, basisDatasetsWritten := false,
        uncaughtError := some PyError.attributeError } := by
  rfl

/-- C6 (counterexample): with missing-data mode and the FFT both requested, the
trace of the decorated training wrapper performs I/O — creating the output
directory, scanning the input directory for session files, and checking their
timestamps — strictly before the unsupported-configuration error is raised, so
the error does NOT fire before any I/O. -/
theorem c6_counterexample_io_before_check :
    WrapperEvent.raiseUnsupportedConfig ∈ train_wrapper_trace true true ∧
    WrapperEvent.makeOutputDir ∈ beforeRaise (train_wrapper_trace true true) ∧
    WrapperEvent.findH5Files ∈ beforeRaise (train_wrapper_trace true true) ∧
    isIoEvent WrapperEvent.makeOutputDir = true ∧
    isIoEvent WrapperEvent.findH5Files = true := by
  decide

/-- C6 (amended): whenever the configuration requests both the spectral (FFT)
transform and missing-data mode, the decorated training wrapper raises the
unsupported-configuration error as the first statement of the wrapped body —
before the config yaml is written, before any frame dataset is opened, before
the compute client is initialized and before training — though after the
decorator's output-directory creation, session-file enumeration and timestamp
check. -/
theorem c6_amended_check_before_frame_io (missing_data use_fft : Bool)
    (h : missing_data = true ∧ use_fft = true) :
    WrapperEvent.raiseUnsupportedConfig ∈ train_wrapper_trace missing_data use_fft ∧
    (beforeRaise (train_wrapper_trace missing_data use_fft)).all
      (fun e => e != WrapperEvent.writeConfigYaml && e != WrapperEvent.openFrameDatasets &&
        e != WrapperEvent.initDaskClient && e != WrapperEvent.trainAndSave) = true := by
  obtain ⟨h1, h2⟩ := h
  subst h1; subst h2
  decide

/-- C6 (amended) witness at the concrete configuration. -/
theorem c6_amended_check_before_frame_io_witness :
    (true = true ∧ true = true) ∧
    (WrapperEvent.raiseUnsupportedConfig ∈ train_wrapper_trace true true ∧
      (beforeRaise (train_wrapper_trace true true)).all
        (fun e => e != WrapperEvent.writeConfigYaml && e != WrapperEvent.openFrameDatasets &&
          e != WrapperEvent.initDaskClient && e != WrapperEvent.trainAndSave) = true) :=
  ⟨⟨rfl, rfl⟩, c6_amended_check_before_frame_io true true ⟨rfl, rfl⟩⟩

/-- C8 (counterexample): with the detector modelled from the spec (accepted peak
indices mapped through the timestamp series), the value the batch loop persists
is `result[0] / fps`, not the timestamp-mapped real time: for timestamps
`[5, 7]` seconds, fps 30 and an accepted peak at sample index 1 the persisted
changepoint time is `7/30`, not the mapped time `7`. -/
theorem c8_counterexample_persisted_time :
    persisted_cps 30 (get_changepoints_model (![5, 7] : Fin 2 → ℚ) (some ([1], [5]))) =
      some [7 / 30] ∧
    persisted_cps 30 (get_changepoints_model (![5, 7] : Fin 2 → ℚ) (some ([1], [5]))) ≠
      some [(![5, 7] : Fin 2 → ℚ) 1] := by
  constructor
  · norm_num [persisted_cps, get_changepoints_model]
  · norm_num [persisted_cps, get_changepoints_model]

/-- C8 (amended): for every session and every accepted changepoint peak, the
persisted changepoint time is the peak's timestamp-mapped real time divided by
the nominal fps — the mapping through the timestamp series happens inside the
detector, and the write loop divides the mapped value by `fps` before
persisting it. -/
theorem c8_amended_persisted_is_mapped_over_fps {T : ℕ} (timestamps : Fin T → ℚ)
    (fps : ℚ) (peaks : List (Fin T)) (vals : List ℚ) :
    persisted_cps fps (get_changepoints_model timestamps (some (peaks, vals))) =
      some (peaks.map (fun p => timestamps p / fps)) := by
  simp [persisted_cps, get_changepoints_model, List.map_map]

/-- C9: removing the inserted all-NaN rows (the `none` rows) from the Frame-Grid
Reindexer's output, in order, reproduces the original input rows exactly, in
their original order. -/
theorem c9_reindexer_round_trip {α : Type} (fps : ℚ) (l : List (α × ℚ)) :
    (insert_nans fps l).filterMap id = l.map Prod.fst := by
  induction l with
  | nil => rfl
  | cons p l ih =>
      obtain ⟨x, t1⟩ := p
      cases l with
      | nil => rfl
      | cons q rest =>
          obtain ⟨y, t2⟩ := q
          rw [insert_nans]
          simp only [List.filterMap_cons, id, List.filterMap_append,
            filterMap_id_replicate_none, List.nil_append, List.map_cons]
          rw [ih]
          rfl

/-- C3: with iteration budget `K ≥ 1`, the missing-data SVD loop invokes the SVD
oracle exactly `K` times (no convergence test — the count depends only on `K`);
each non-final iteration replaces the data by overwriting the masked entries of
a copy with the clipped rank-`recon_pcs` reconstruction plus the mean and
recomputes the column mean (the step equation, which is definitional); and
`mask_data` leaves unmasked entries untouched, operating on a copy rather than
mutating its input. -/
theorem c3_fixed_iteration_imputation {n d r : ℕ} (svdO : SvdOracle n d r)
    (mask : Fin n → Fin d → Bool) (reconPcs : ℕ) (minHeight maxHeight : ℚ)
    (K : ℕ) (X : Mat n d) (mean : Vec d) (hK : 1 ≤ K) :
    (computeSvdLoop svdO mask reconPcs minHeight maxHeight K X mean).svdCalls = K ∧
    (∀ (K2 : ℕ) (X0 : Mat n d) (mean0 : Vec d),
      computeSvdLoop svdO mask reconPcs minHeight maxHeight (K2 + 2) X0 mean0 =
        (let t := svdO (center X0 mean0)
         let recon : Mat n d := fun i j =>
           clip2 minHeight maxHeight (lowRankRecon t.1 t.2.1 t.2.2 reconPcs mean0 i j)
         let X1 := mask_data X0 mask recon
         let res := computeSvdLoop svdO mask reconPcs minHeight maxHeight (K2 + 1) X1 (colMean X1)
         { res with svdCalls := res.svdCalls + 1 })) ∧
    (∀ (X0 : Mat n d) (mask0 : Fin n → Fin d → Bool) (R : Mat n d) (i : Fin n) (j : Fin d),
      mask_data X0 mask0 R i j = if mask0 i j then R i j else X0 i j) := by
  refine ⟨?_, fun K2 X0 mean0 => rfl, fun X0 mask0 R i j => rfl⟩
  obtain ⟨k, rfl⟩ := Nat.exists_eq_add_of_le hK
  rw [Nat.add_comm]
  exact computeSvdLoop_calls svdO mask reconPcs minHeight maxHeight k X mean

/-- A trivial concrete SVD oracle, used only to evaluate claim theorems with
hypotheses on concrete input. -/
def zeroOracle : SvdOracle 1 1 1 := fun _ => (fun _ _ => 0, fun _ => 0, fun _ _ => 0)

/-- C3 witness: with a budget of 2 iterations the loop performs exactly 2 SVDs. -/
theorem c3_fixed_iteration_imputation_witness :
    1 ≤ 2 ∧
    (computeSvdLoop zeroOracle (fun _ _ => false) 1 0 100 2 ![![0]] ![0]).svdCalls = 2 :=
  ⟨by norm_num,
   (c3_fixed_iteration_imputation zeroOracle (fun _ _ => false) 1 0 100 2 ![![0]] ![0]
      (by norm_num)).1⟩

/-- C4: in every basis returned by the Trainer, each component row has a position
`a` whose (sign-corrected) entry is non-negative and dominates the absolute value
of every entry of that row — the row's largest-magnitude entry is non-negative
after the sign normalization. -/
theorem c4_sign_normalized_row_max {n d r : ℕ} (svdO : SvdOracle n (d + 1) r)
    (missing_data : Bool) (mask : Fin n → Fin (d + 1) → Bool) (iters reconPcs : ℕ)
    (minHeight maxHeight : ℚ) (X : Mat n (d + 1)) (i : Fin r) :
    ∃ a : Fin (d + 1),
      0 ≤ (train_pca_dask svdO missing_data mask iters reconPcs minHeight maxHeight X).components i a ∧
      ∀ j : Fin (d + 1),
        |(train_pca_dask svdO missing_data mask iters reconPcs minHeight maxHeight X).components i j|
          ≤ (train_pca_dask svdO missing_data mask iters reconPcs minHeight maxHeight X).components i a := by
  have hmax := fun j => signCorrect_row_max
    (compute_svd svdO missing_data mask iters reconPcs minHeight maxHeight X (colMean X)).v i j
  exact ⟨argmaxAbs
      ((compute_svd svdO missing_data mask iters reconPcs minHeight maxHeight X (colMean X)).v i),
    le_trans (abs_nonneg _)
      (hmax (argmaxAbs
        ((compute_svd svdO missing_data mask iters reconPcs minHeight maxHeight X (colMean X)).v i))),
    hmax⟩

/-- C5: `explained_variance[i] = S[i]² / (n − 1)`, each ratio is the explained
variance divided by `total_var` computed as the unbiased per-feature variance of
the final data matrix summed over features, and — provided the singular values
carry no more energy than the centered data matrix, which holds for any genuine
SVD — the ratios sum to at most 1. -/
theorem c5_explained_variance_ratios_sum_le_one {n d r : ℕ} (s : Vec r) (X : Mat n d)
    (hn : 2 ≤ n) (hs : (∑ i, s i ^ 2) ≤ frobSq (center X (colMean X))) :
    (∀ i, (compute_explained_variance s n (totalVarOf X)).1 i = s i ^ 2 / ((n : ℚ) - 1)) ∧
    (∀ i, (compute_explained_variance s n (totalVarOf X)).2 i =
        (compute_explained_variance s n (totalVarOf X)).1 i / totalVarOf X) ∧
    (∑ i, (compute_explained_variance s n (totalVarOf X)).2 i) ≤ 1 := by
  refine ⟨fun i => rfl, fun i => rfl, ?_⟩
  have hc : ((n : ℚ) - 1) ≠ 0 := by
    have h2 : (2 : ℚ) ≤ (n : ℚ) := by exact_mod_cast hn
    linarith
  have hF : 0 ≤ frobSq (center X (colMean X)) := by
    unfold frobSq
    exact Finset.sum_nonneg fun i _ => Finset.sum_nonneg fun j _ => sq_nonneg _
  have hct : ((n : ℚ) - 1) * totalVarOf X = frobSq (center X (colMean X)) := by
    rw [totalVarOf_eq_frobSq]
    field_simp
  have hsum : (∑ i, (compute_explained_variance s n (totalVarOf X)).2 i) =
      (∑ i, s i ^ 2) / (((n : ℚ) - 1) * totalVarOf X) := by
    unfold compute_explained_variance
    calc (∑ i, s i ^ 2 / ((n : ℚ) - 1) / totalVarOf X)
        = ∑ i, s i ^ 2 / (((n : ℚ) - 1) * totalVarOf X) :=
          Finset.sum_congr rfl fun i _ => div_div _ _ _
      _ = (∑ i, s i ^ 2) / (((n : ℚ) - 1) * totalVarOf X) := (Finset.sum_div _ _ _).symm
  rw [hsum, hct]
  rcases eq_or_lt_of_le hF with hF0 | hFpos
  · rw [← hF0, div_zero]
    norm_num
  · exact (div_le_one hFpos).mpr hs

/-- C5 witness at `n = 2`, `d = 1`, `r = 1`. -/
theorem c5_explained_variance_ratios_sum_le_one_witness :
    2 ≤ 2 ∧
    ((∑ i, ((![1] : Vec 1) i) ^ 2) ≤
      frobSq (center (![![0], ![2]] : Mat 2 1) (colMean (![![0], ![2]] : Mat 2 1)))) ∧
    (∑ i, (compute_explained_variance (![1] : Vec 1) 2
        (totalVarOf (![![0], ![2]] : Mat 2 1))).2 i) ≤ 1 :=
  ⟨by norm_num,
   by norm_num [frobSq, center, colMean, Fin.sum_univ_two, Fin.sum_univ_one],
   (c5_explained_variance_ratios_sum_le_one (![1] : Vec 1) (![![0], ![2]] : Mat 2 1)
      (by norm_num)
      (by norm_num [frobSq, center, colMean, Fin.sum_univ_two, Fin.sum_univ_one])).2.2⟩

/-- C7: per-session failures during changepoint detection are non-fatal — when
scores are available whenever missing-data mode is on, the batch run succeeds
and equals one pass over the sessions in which a session with a chunk/score
count mismatch contributes nothing but one warning, a session with a degenerate
`(None, None)` detector result contributes nothing, and every other session's
result is written; in particular every remaining session is still processed. -/
theorem c7_per_session_failures_are_nonfatal (missing_data scoresAvail : Bool)
    (fps : ℚ) (sessions : List CpSession)
    (h : missing_data = true → scoresAvail = true) :
    get_changepoints_dask_run missing_data scoresAvail fps sessions =
      Except.ok
        (sessions.filterMap (fun s =>
           if missing_data && (s.chunksTotal != s.nScores) then none
           else s.result.map (fun r => (r.1.map (fun t => t / fps), r.2))),
         (sessions.filter (fun s => missing_data && (s.chunksTotal != s.nScores))).length) := by
  have hms : (missing_data && !scoresAvail) = false := by
    cases missing_data with
    | false => rfl
    | true => rw [h rfl]; rfl
  unfold get_changepoints_dask_run
  rw [setup_sessions_eq missing_data scoresAvail hms sessions]
  simp only [Except.map]
  rw [write_changepoints_filter]

/-- C7 witness: a batch of three sessions — one good, one with a chunk/score
mismatch, one with a degenerate detector result — succeeds, writes exactly the
good session's result, and emits exactly one warning. -/
theorem c7_per_session_failures_are_nonfatal_witness :
    (true = true → true = true) ∧
    get_changepoints_dask_run true true 2
        [CpSession.mk 10 10 (some ([4], [3])), CpSession.mk 10 9 (some ([1], [1])),
         CpSession.mk 10 10 none] =
      Except.ok
        ([CpSession.mk 10 10 (some ([4], [3])), CpSession.mk 10 9 (some ([1], [1])),
          CpSession.mk 10 10 none].filterMap (fun s =>
            if true && (s.chunksTotal != s.nScores) then none
            else s.result.map (fun r => (r.1.map (fun t => t / 2), r.2))),
         ([CpSession.mk 10 10 (some ([4], [3])), CpSession.mk 10 9 (some ([1], [1])),
           CpSession.mk 10 10 none].filter
            (fun s => true && (s.chunksTotal != s.nScores))).length) :=
  ⟨fun h => h,
   c7_per_session_failures_are_nonfatal true true 2
     [CpSession.mk 10 10 (some ([4], [3])), CpSession.mk 10 9 (some ([1], [1])),
      CpSession.mk 10 10 none] (fun h => h)⟩

/-- C10: in all three stages a pixel is marked missing exactly when its stored
mask value is strictly below `mask_threshold` AND its frame value (as the stage
sees it: height-clipped in training, raw in apply/changepoints) is strictly
above `mask_height_threshold`; every marked pixel is set to 0 in the frames the
stage hands to the subsequent filtering/projection, and unmarked pixels are
passed through unchanged. -/
theorem c10_missing_pixel_rule {n d : ℕ} (minHeight maxHeight mthr hthr : ℚ)
    (frames maskRaw : Mat n d) (i : Fin n) (j : Fin d) :
    ((train_front minHeight maxHeight mthr hthr frames maskRaw true).2 i j = true ↔
      (maskRaw i j < mthr ∧ hthr < clip2 minHeight maxHeight (frames i j))) ∧
    ((train_front minHeight maxHeight mthr hthr frames maskRaw true).2 i j = true →
      (train_front minHeight maxHeight mthr hthr frames maskRaw true).1 i j = 0) ∧
    ((train_front minHeight maxHeight mthr hthr frames maskRaw true).2 i j = false →
      (train_front minHeight maxHeight mthr hthr frames maskRaw true).1 i j =
        clip2 minHeight maxHeight (frames i j)) ∧
    ((apply_front mthr hthr frames maskRaw true).2 i j = true ↔
      (maskRaw i j < mthr ∧ hthr < frames i j)) ∧
    ((apply_front mthr hthr frames maskRaw true).2 i j = true →
      (apply_front mthr hthr frames maskRaw true).1 i j = 0) ∧
    ((apply_front mthr hthr frames maskRaw true).2 i j = false →
      (apply_front mthr hthr frames maskRaw true).1 i j = frames i j) ∧
    ((changepoints_front mthr hthr frames maskRaw true).2 i j = true ↔
      (maskRaw i j < mthr ∧ hthr < frames i j)) ∧
    ((changepoints_front mthr hthr frames maskRaw true).2 i j = true →
      (changepoints_front mthr hthr frames maskRaw true).1 i j = 0) ∧
    ((changepoints_front mthr hthr frames maskRaw true).2 i j = false →
      (changepoints_front mthr hthr frames maskRaw true).1 i j = frames i j) := by
  obtain ⟨h1, h2, h3⟩ := front_spec mthr hthr
    (fun a b => clip2 minHeight maxHeight (frames a b)) maskRaw i j
  obtain ⟨h4, h5, h6⟩ := front_spec mthr hthr frames maskRaw i j
  exact ⟨h1, h2, h3, h4, h5, h6, h4, h5, h6⟩

end MoseqPca
